import Mathlib

/-!
Verification of the binder parcel buffer abstraction
(libs/binder/rust/src/parcel.rs).

The Rust code wraps an external buffer engine (the C++ `AParcel`), which
owns the raw byte storage, the cursor, and the primitive fixed-width
read/write operations. That engine is not part of the Rust source under
study, so it is modelled here from the design document: a parcel is a
byte list plus a cursor (the data position), fixed-width `i32` values are
stored little-endian in two's complement, reads past the end fail with
`NOT_ENOUGH_DATA`, and the splice primitive `append_from` validates its
range and appends onto the end of the destination buffer.

All the control logic of `sized_write`, `sized_read`, `resize_out_vec`,
`resize_nullable_out_vec`, `append_all_from`, `clone` and
`ReadableSubParcel` is translated directly from the Rust source.
-/

namespace Binder

/-- Status codes surfaced by parcel operations, from error.rs /
the design document's error-kind list. -/
inductive StatusCode where
  | BAD_VALUE
  | NOT_ENOUGH_DATA
  | UNEXPECTED_NULL
  | BAD_TYPE
  deriving DecidableEq, Repr

/-- Modelled from the spec: the buffer engine state behind an `AParcel`
handle — raw byte storage plus the shared cursor (data position).
`data` is the byte buffer, `pos` the current read/write position. -/
structure Parcel where
  data : List Nat
  pos : Nat
  deriving DecidableEq, Repr

/-- The result of a fallible parcel operation: an `Except` outcome paired
with the parcel state afterwards (the cursor is shared engine state, so
it is threaded through errors as well). -/
abbrev PResult (α : Type) := Except StatusCode α × Parcel

/-- Byte of the buffer at index `i` (0 when out of range; parcels built
by the modelled writes only hold bytes below 256). -/
def Parcel.byteAt (p : Parcel) (i : Nat) : Nat := p.data.getD i 0

/-- Decode four little-endian bytes into an unsigned 32-bit value. -/
def decodeU32le (b0 b1 b2 b3 : Nat) : Nat :=
  b0 % 256 + 256 * (b1 % 256) + 65536 * (b2 % 256) + 16777216 * (b3 % 256)

/-- Reinterpret an unsigned 32-bit value as a signed `i32`
(two's complement). -/
def i32ofU32 (n : Nat) : Int :=
  if n < 2147483648 then (n : Int) else (n : Int) - 4294967296

/-- Encode an `i32` as four little-endian bytes (two's complement). -/
def encodeI32 (v : Int) : List Nat :=
  let n := (v % 4294967296).toNat
  [n % 256, n / 256 % 256, n / 65536 % 256, n / 16777216 % 256]

/-- Modelled from the spec: the engine primitive reading a fixed-width
`i32` at the cursor, advancing it by 4; fails with `NOT_ENOUGH_DATA`
when fewer than 4 bytes remain, leaving the state unchanged. -/
def Parcel.readI32 (p : Parcel) : PResult Int :=
  if p.pos + 4 ≤ p.data.length then
    (Except.ok (i32ofU32 (decodeU32le (p.byteAt p.pos) (p.byteAt (p.pos + 1))
        (p.byteAt (p.pos + 2)) (p.byteAt (p.pos + 3)))),
      { p with pos := p.pos + 4 })
  else
    (Except.error StatusCode.NOT_ENOUGH_DATA, p)

/-- Modelled from the spec: the engine primitive writing a fixed-width
`i32` at the cursor, advancing it by 4. Writing over existing bytes
replaces them; writing at or past the end grows the buffer. -/
def Parcel.writeI32 (v : Int) (p : Parcel) : Parcel :=
  { data := p.data.take p.pos ++ encodeI32 v ++ p.data.drop (p.pos + 4),
    pos := p.pos + 4 }

/-- Rust `Parcel::get_data_position`: the current cursor, as the engine's
`i32` return value. -/
def Parcel.get_data_position (p : Parcel) : Int := (p.pos : Int)

/-- Rust `Parcel::get_data_size`: the total buffer size in bytes. -/
def Parcel.get_data_size (p : Parcel) : Int := (p.data.length : Int)

/-- Rust `i32::checked_add`, as used by `sized_read` to compute `end`. -/
def checkedAddI32 (a b : Int) : Option Int :=
  if a + b < -2147483648 ∨ a + b > 2147483647 then none else some (a + b)

/-- Rust `Parcel::new` / `AParcel_create`: a fresh empty owned buffer. -/
def Parcel.new : Parcel := { data := [], pos := 0 }

/-- Rust `Parcel::append_from`. Modelled from the spec on the engine side:
`AParcel_appendFrom` checks `start ≥ 0`, `size ≥ 0` and
`start + size ≤ src.size()`, surfacing a violation as `BAD_VALUE`, and
otherwise appends the `size` bytes of `src` starting at offset `start`
onto the end of the destination buffer. -/
def Parcel.append_from (dst src : Parcel) (start size : Int) : PResult Unit :=
  if start < 0 ∨ size < 0 ∨ start + size > (src.data.length : Int) then
    (Except.error StatusCode.BAD_VALUE, dst)
  else
    (Except.ok (),
      { dst with data := dst.data ++ (src.data.drop start.toNat).take size.toNat })

/-- Rust `Parcel::append_all_from`: append the whole of `src`. -/
def Parcel.append_all_from (dst src : Parcel) : PResult Unit :=
  dst.append_from src 0 src.get_data_size

/-- Rust `impl Clone for Parcel`: construct a fresh empty owned buffer and
append all of the source into it (`expect` would abort on failure; the
append from an empty destination never fails, as proved below). -/
def Parcel.clone (p : Parcel) : Parcel :=
  (Parcel.new.append_all_from p).2

/-- Rust `Parcel::sized_write`. The callback `f` stands for the writes the
`WritableSubParcel` performs; it receives the state after the 4-byte
zero placeholder has been written and returns the outcome together with
the state afterwards. The Rust `assert` `end >= start` is modelled by
the `none` outcome (an assertion failure aborts rather than returning).
On callback success the code seeks back to `start`, overwrites the
placeholder with `end - start`, and seeks to `end`; a callback error is
propagated with no patch-back. -/
def Parcel.sized_write (p : Parcel) (f : Parcel → PResult Unit) :
    Option (PResult Unit) :=
  let start := p.pos
  match f (Parcel.writeI32 0 p) with
  | (Except.error e, p2) => some (Except.error e, p2)
  | (Except.ok _, p2) =>
    if p2.pos < start then none
    else
      let p3 := Parcel.writeI32 ((p2.pos : Int) - (start : Int)) { p2 with pos := start }
      some (Except.ok (), { p3 with pos := p2.pos })

/-- Rust `Parcel::sized_read`. Reads the signed 4-byte length header `L`,
rejects a negative `L` with `BAD_VALUE`, computes `end = start + L` with
`checked_add` (`BAD_VALUE` on overflow), rejects `end > size` with
`NOT_ENOUGH_DATA`, then runs the callback with the sub-parcel's end
position; on callback success the cursor is forced to `end`, and a
callback error is propagated without the forced seek. -/
def Parcel.sized_read (p : Parcel) (f : Nat → Parcel → PResult Unit) :
    PResult Unit :=
  match p.readI32 with
  | (Except.error e, p1) => (Except.error e, p1)
  | (Except.ok L, p1) =>
    if L < 0 then (Except.error StatusCode.BAD_VALUE, p1)
    else
      match checkedAddI32 (p.pos : Int) L with
      | none => (Except.error StatusCode.BAD_VALUE, p1)
      | some endI =>
        if endI > (p.data.length : Int) then
          (Except.error StatusCode.NOT_ENOUGH_DATA, p1)
        else
          match f endI.toNat p1 with
          | (Except.error e, p2) => (Except.error e, p2)
          | (Except.ok _, p2) => (Except.ok (), { p2 with pos := endI.toNat })

/-- Rust `Vec::resize_with(len, Default::default)`: truncate to `n` elements,
or extend with the default value `d`. -/
def resizeWith {α : Type} (v : List α) (n : Nat) (d : α) : List α :=
  if n ≤ v.length then v.take n else v ++ List.replicate (n - v.length) d

/-- Rust `Parcel::resize_out_vec`: read a signed 4-byte length, fail with
`UNEXPECTED_NULL` when it is negative, otherwise resize the output
vector to that many default elements. -/
def Parcel.resize_out_vec {α : Type} (p : Parcel) (out : List α) (d : α) :
    Except StatusCode Unit × Parcel × List α :=
  match p.readI32 with
  | (Except.error e, p1) => (Except.error e, p1, out)
  | (Except.ok len, p1) =>
    if len < 0 then (Except.error StatusCode.UNEXPECTED_NULL, p1, out)
    else (Except.ok (), p1, resizeWith out len.toNat d)

/-- Rust `Parcel::resize_nullable_out_vec`: read a signed 4-byte length; a
negative length sets the output to `none`, otherwise a fresh vector of
that many default elements is allocated. -/
def Parcel.resize_nullable_out_vec {α : Type} (p : Parcel)
    (out : Option (List α)) (d : α) :
    Except StatusCode Unit × Parcel × Option (List α) :=
  match p.readI32 with
  | (Except.error e, p1) => (Except.error e, p1, out)
  | (Except.ok len, p1) =>
    if len < 0 then (Except.ok (), p1, none)
    else (Except.ok (), p1, some (List.replicate len.toNat d))

/-- Modelled from the spec: `read_onto` delegates to the value's
`deserialize_from`, whose default reads a fresh value and replaces the
old one wholesale; on error the old value is left at its prior value
(the design document requires outputs to be either fully written or left
at their prior/default value). Instantiated at `i32` values. -/
def Parcel.read_onto (p : Parcel) (x : Int) : PResult Unit × Int :=
  match p.readI32 with
  | (Except.ok v, p1) => ((Except.ok (), p1), v)
  | (Except.error e, p1) => ((Except.error e, p1), x)

/-- Rust `ReadableSubParcel`: a bounded readable view used by `sized_read`,
carrying the enclosing parcel state and the precomputed end position. -/
structure ReadableSubParcel where
  parcel : Parcel
  end_position : Int

/-- Rust `ReadableSubParcel::has_more_data`: whether the live cursor is still
strictly below the recorded end position. -/
def ReadableSubParcel.has_more_data (s : ReadableSubParcel) : Bool :=
  decide ((s.parcel.pos : Int) < s.end_position)

/-- Rust `ReadableSubParcel::read` at a fixed-width `i32`: the Rust code
asserts `has_more_data` before deserializing, so reading an exhausted
sub-parcel panics; the panic is modelled by the `none` outcome. -/
def ReadableSubParcel.read (s : ReadableSubParcel) : Option (PResult Int) :=
  if s.has_more_data then some s.parcel.readI32 else none

/-- Read `n` consecutive `i32` values, collecting the outcomes. -/
def Parcel.readN : Nat → Parcel → List (Except StatusCode Int) × Parcel
  | 0, p => ([], p)
  | n + 1, p =>
    let r := p.readI32
    let rest := Parcel.readN n r.2
    (r.1 :: rest.1, rest.2)

/-- Serialize for a slice of `i32`: the element count as an `i32`,
followed by the elements, each written by the engine primitive. -/
def Parcel.writeAll (vs : List Int) (p : Parcel) : Parcel :=
  vs.foldl (fun q v => Parcel.writeI32 v q) p

/-- Writing a length-prefixed `i32` slice: count field then elements. -/
def Parcel.writeSlice (vs : List Int) (p : Parcel) : Parcel :=
  Parcel.writeAll vs (Parcel.writeI32 (vs.length : Int) p)

end Binder

namespace Binder

/-! ### Helper lemmas about the modelled engine primitives -/

lemma length_encodeI32 (v : Int) : (encodeI32 v).length = 4 := by
  simp [encodeI32]

lemma i32_roundtrip (v : Int) (h0 : -2147483648 ≤ v) (h1 : v < 2147483648) :
    i32ofU32 (decodeU32le ((encodeI32 v).getD 0 0) ((encodeI32 v).getD 1 0)
      ((encodeI32 v).getD 2 0) ((encodeI32 v).getD 3 0)) = v := by
  simp only [encodeI32, decodeU32le, i32ofU32, List.getD_cons_zero, List.getD_cons_succ]
  split <;> omega

lemma readI32_encode (d rest : List Nat) (v : Int)
    (h0 : -2147483648 ≤ v) (h1 : v < 2147483648) :
    Parcel.readI32 { data := d ++ encodeI32 v ++ rest, pos := d.length } =
      (Except.ok v, { data := d ++ encodeI32 v ++ rest, pos := d.length + 4 }) := by
  have hlen : (encodeI32 v).length = 4 := length_encodeI32 v
  have hb : ∀ i, i < 4 →
      Parcel.byteAt { data := d ++ encodeI32 v ++ rest, pos := d.length } (d.length + i)
        = (encodeI32 v).getD i 0 := by
    intro i hi
    unfold Parcel.byteAt
    rw [List.append_assoc,
      List.getD_append_right _ _ _ _ (Nat.le_add_right _ _), Nat.add_sub_cancel_left,
      List.getD_append _ _ _ _ (by omega)]
  have hsz : d.length + 4 ≤ (d ++ encodeI32 v ++ rest).length := by
    simp [hlen]
  unfold Parcel.readI32
  rw [if_pos hsz]
  have e0 := hb 0 (by omega)
  have e1 := hb 1 (by omega)
  have e2 := hb 2 (by omega)
  have e3 := hb 3 (by omega)
  rw [show d.length + 0 = d.length from rfl] at e0
  rw [e1, e2, e3, e0]
  rw [i32_roundtrip v h0 h1]

lemma writeI32_at_end (v : Int) (p : Parcel) (h : p.pos = p.data.length) :
    Parcel.writeI32 v p = { data := p.data ++ encodeI32 v, pos := p.pos + 4 } := by
  unfold Parcel.writeI32
  rw [h, List.take_length, List.drop_eq_nil_of_le (by omega), List.append_nil]

lemma writeAll_at_end (vs : List Int) (p : Parcel) (h : p.pos = p.data.length) :
    ∃ body : List Nat,
      Parcel.writeAll vs p = { data := p.data ++ body, pos := p.pos + 4 * vs.length } ∧
      body.length = 4 * vs.length := by
  induction vs generalizing p with
  | nil =>
    refine ⟨[], ?_, rfl⟩
    simp [Parcel.writeAll]
  | cons v vs ih =>
    have h1 := writeI32_at_end v p h
    have h2 : (Parcel.writeI32 v p).pos = (Parcel.writeI32 v p).data.length := by
      rw [h1]; simp [length_encodeI32, h]
    obtain ⟨body, hb, hblen⟩ := ih (Parcel.writeI32 v p) h2
    refine ⟨encodeI32 v ++ body, ?_, by simp [hblen, length_encodeI32]; ring⟩
    show Parcel.writeAll vs (Parcel.writeI32 v p) = _
    rw [hb, h1]
    simp only [Parcel.mk.injEq, List.append_assoc, List.length_cons]
    exact ⟨trivial, by ring⟩

lemma sized_write_ok (p : Parcel) (f : Parcel → PResult Unit) (p2 : Parcel)
    (h : f (Parcel.writeI32 0 p) = (Except.ok (), p2)) (h2 : p.pos ≤ p2.pos) :
    Parcel.sized_write p f =
      some (Except.ok (),
        { data := p2.data.take p.pos ++ encodeI32 ((p2.pos : Int) - (p.pos : Int))
            ++ p2.data.drop (p.pos + 4),
          pos := p2.pos }) := by
  unfold Parcel.sized_write
  rw [h]
  dsimp only
  rw [if_neg (by omega : ¬ p2.pos < p.pos)]
  rfl

end Binder

namespace Binder

/-! ### Claim theorems -/

/-- C9: `append_all_from(dst, src)` is exactly the specialization
`append_from(dst, src, 0, src.size())`: same success/error result and the
same effect on the destination buffer. -/
theorem append_all_from_is_full_append (dst src : Parcel) :
    Parcel.append_all_from dst src = Parcel.append_from dst src 0 src.get_data_size := rfl

/-- C6: `clone` builds a fresh empty owned buffer and appends all of the
source into it; the append never fails, the clone holds a copy of the
source bytes (no aliasing: a new structure value is built), and reading
any number of values from the start of the clone gives exactly the same
outcomes as reading from the start of the source. -/
theorem clone_duplicates (p : Parcel) :
    (Parcel.new.append_all_from p).1 = Except.ok () ∧
    Parcel.clone p = { data := p.data, pos := 0 } ∧
    ∀ n, Parcel.readN n { data := (Parcel.clone p).data, pos := 0 } =
      Parcel.readN n { data := p.data, pos := 0 } := by
  have hfull : Parcel.new.append_all_from p = (Except.ok (), { data := p.data, pos := 0 }) := by
    show Parcel.new.append_from p 0 (p.data.length : Int) = _
    unfold Parcel.append_from
    rw [if_neg (by omega)]
    simp [Parcel.new]
  have hclone : Parcel.clone p = { data := p.data, pos := 0 } := by
    unfold Parcel.clone
    rw [hfull]
  refine ⟨by rw [hfull], hclone, fun n => by rw [hclone]⟩

/-- C10: on the readable sub-parcel built by `sized_read`,
`has_more_data` returns true exactly when the live data position is
strictly below the recorded end position, and `read` on an exhausted
sub-parcel trips the assertion (modelled as the `none` outcome, a panic)
instead of returning an error status. -/
theorem subparcel_read_assertion (s : ReadableSubParcel) :
    (s.has_more_data = true ↔ (s.parcel.pos : Int) < s.end_position) ∧
    (s.read = none ↔ s.has_more_data = false) := by
  constructor
  · simp [ReadableSubParcel.has_more_data]
  · unfold ReadableSubParcel.read
    split <;> simp_all

/-- C8: `read_onto` (through the default `deserialize_from`, modelled
from the spec) either fully writes the output with the decoded value, or
on error leaves the output at its prior value. -/
theorem read_onto_all_or_nothing (p : Parcel) (x : Int) :
    (∀ e p1, p.readI32 = (Except.error e, p1) →
      p.read_onto x = ((Except.error e, p1), x)) ∧
    (∀ v p1, p.readI32 = (Except.ok v, p1) →
      p.read_onto x = ((Except.ok (), p1), v)) := by
  constructor
  · intro e p1 h
    unfold Parcel.read_onto
    rw [h]
  · intro v p1 h
    unfold Parcel.read_onto
    rw [h]

/-- Witness for C8: reading onto the value 7 from an empty parcel fails
with `NOT_ENOUGH_DATA` and leaves the value at 7. -/
theorem read_onto_all_or_nothing_witness :
    Parcel.read_onto Parcel.new 7 = ((Except.error StatusCode.NOT_ENOUGH_DATA, Parcel.new), 7) :=
  (read_onto_all_or_nothing Parcel.new 7).1 StatusCode.NOT_ENOUGH_DATA Parcel.new rfl

/-- C4: `append_from` fails with `BAD_VALUE` exactly when `start < 0`,
`size < 0` or `start + size > src.size()`, leaving the destination
untouched; otherwise it succeeds and appends exactly `size` bytes taken
from offset `start` of the source onto the end of the destination. -/
theorem append_from_bounds (dst src : Parcel) (start size : Int) :
    ((start < 0 ∨ size < 0 ∨ start + size > (src.data.length : Int)) →
      Parcel.append_from dst src start size = (Except.error StatusCode.BAD_VALUE, dst)) ∧
    (¬ (start < 0 ∨ size < 0 ∨ start + size > (src.data.length : Int)) →
      Parcel.append_from dst src start size =
        (Except.ok (),
          { dst with data := dst.data ++ (src.data.drop start.toNat).take size.toNat }) ∧
      ((src.data.drop start.toNat).take size.toNat).length = size.toNat) := by
  constructor
  · intro h
    unfold Parcel.append_from
    rw [if_pos h]
  · intro h
    refine ⟨by unfold Parcel.append_from; rw [if_neg h], ?_⟩
    push_neg at h
    obtain ⟨h1, h2, h3⟩ := h
    rw [List.length_take, List.length_drop]
    omega

/-- Witness for C4: with a 4-byte source, the splice `start = 4, size = 2`
is rejected with `BAD_VALUE`, while `start = 1, size = 2` copies exactly
the bytes at offsets 1 and 2. -/
theorem append_from_bounds_witness :
    Parcel.append_from Parcel.new { data := [1, 2, 3, 4], pos := 0 } 4 2 =
      (Except.error StatusCode.BAD_VALUE, Parcel.new) ∧
    Parcel.append_from Parcel.new { data := [1, 2, 3, 4], pos := 0 } 1 2 =
      (Except.ok (), { data := [2, 3], pos := 0 }) := by
  constructor
  · exact (append_from_bounds Parcel.new { data := [1, 2, 3, 4], pos := 0 } 4 2).1 (by decide)
  · have h := (append_from_bounds Parcel.new { data := [1, 2, 3, 4], pos := 0 } 1 2).2 (by decide)
    rw [h.1]
    rfl

/-- C7 counterexample: `resize_out_vec` accepts the length header 1000
from a 4-byte parcel (0 bytes remain after the header) and resizes the
output vector to 1000 elements: the header is NOT validated against the
remaining buffer size before being trusted. -/
theorem resize_out_vec_trusts_header :
    (Parcel.resize_out_vec { data := [232, 3, 0, 0], pos := 0 } ([] : List Int) 0).1 =
      Except.ok () ∧
    (Parcel.resize_out_vec { data := [232, 3, 0, 0], pos := 0 } ([] : List Int) 0).2.2 =
      List.replicate 1000 (0 : Int) ∧
    ({ data := [232, 3, 0, 0], pos := 0 } : Parcel).data.length = 4 :=
  ⟨rfl, rfl, rfl⟩

/-- C7 as amended: both resize operations validate the signed length
header for non-negativity only — a negative header is rejected with
`UNEXPECTED_NULL` by `resize_out_vec` and mapped to a null vector by
`resize_nullable_out_vec` — and a non-negative header is trusted as the
new vector length with no check against the remaining buffer size. -/
theorem resize_header_nonneg_only {α : Type} (p : Parcel) (out : List α) (d : α) :
    (∀ len p1, p.readI32 = (Except.ok len, p1) → len < 0 →
      p.resize_out_vec out d = (Except.error StatusCode.UNEXPECTED_NULL, p1, out) ∧
      p.resize_nullable_out_vec (some out) d = (Except.ok (), p1, none)) ∧
    (∀ len p1, p.readI32 = (Except.ok len, p1) → 0 ≤ len →
      p.resize_out_vec out d = (Except.ok (), p1, resizeWith out len.toNat d) ∧
      p.resize_nullable_out_vec (some out) d =
        (Except.ok (), p1, some (List.replicate len.toNat d))) := by
  constructor
  · intro len p1 h hneg
    constructor
    · unfold Parcel.resize_out_vec
      rw [h]
      dsimp only
      rw [if_pos hneg]
    · unfold Parcel.resize_nullable_out_vec
      rw [h]
      dsimp only
      rw [if_pos hneg]
  · intro len p1 h hnn
    constructor
    · unfold Parcel.resize_out_vec
      rw [h]
      dsimp only
      rw [if_neg (by omega)]
    · unfold Parcel.resize_nullable_out_vec
      rw [h]
      dsimp only
      rw [if_neg (by omega)]

/-- Witness for the amended C7: the header -1 is rejected by
`resize_out_vec` with `UNEXPECTED_NULL` and turned into a null vector by
`resize_nullable_out_vec`. -/
theorem resize_header_nonneg_only_witness :
    Parcel.resize_out_vec { data := [255, 255, 255, 255], pos := 0 } ([] : List Int) 0 =
      (Except.error StatusCode.UNEXPECTED_NULL,
        { data := [255, 255, 255, 255], pos := 4 }, []) ∧
    Parcel.resize_nullable_out_vec { data := [255, 255, 255, 255], pos := 0 }
        (some ([] : List Int)) 0 =
      (Except.ok (), { data := [255, 255, 255, 255], pos := 4 }, none) :=
  (resize_header_nonneg_only { data := [255, 255, 255, 255], pos := 0 } ([] : List Int) 0).1
    (-1) { data := [255, 255, 255, 255], pos := 4 } (by rfl) (by norm_num)

end Binder

namespace Binder

lemma checkedAddI32_some (a b endI : Int) (h : checkedAddI32 a b = some endI) :
    endI = a + b := by
  unfold checkedAddI32 at h
  split at h
  · simp at h
  · injection h with h
    omega

lemma sized_read_neg_len (p : Parcel) (f : Nat → Parcel → PResult Unit) (L : Int) (p1 : Parcel)
    (h1 : p.readI32 = (Except.ok L, p1)) (h2 : L < 0) :
    p.sized_read f = (Except.error StatusCode.BAD_VALUE, p1) := by
  unfold Parcel.sized_read
  rw [h1]
  dsimp only
  rw [if_pos h2]

lemma sized_read_overflow (p : Parcel) (f : Nat → Parcel → PResult Unit) (L : Int) (p1 : Parcel)
    (h1 : p.readI32 = (Except.ok L, p1)) (h2 : 0 ≤ L)
    (h3 : checkedAddI32 (p.pos : Int) L = none) :
    p.sized_read f = (Except.error StatusCode.BAD_VALUE, p1) := by
  unfold Parcel.sized_read
  rw [h1]
  dsimp only
  rw [if_neg (by omega), h3]

lemma sized_read_too_big (p : Parcel) (f : Nat → Parcel → PResult Unit) (L : Int)
    (p1 : Parcel) (endI : Int)
    (h1 : p.readI32 = (Except.ok L, p1)) (h2 : 0 ≤ L)
    (h3 : checkedAddI32 (p.pos : Int) L = some endI) (h4 : endI > (p.data.length : Int)) :
    p.sized_read f = (Except.error StatusCode.NOT_ENOUGH_DATA, p1) := by
  unfold Parcel.sized_read
  rw [h1]
  dsimp only
  rw [if_neg (by omega), h3]
  dsimp only
  rw [if_pos h4]

/-- C1: whenever `sized_read` succeeds, the data position afterwards is
`start + L` for the length header `L` that was read, regardless of how
much the callback consumed (the forced seek to `end`); and when the
header checks pass but the callback errors, the error is propagated
with the parcel left exactly in the callback's final state — no forced
seek is performed. -/
theorem sized_read_forced_seek (p : Parcel) (f : Nat → Parcel → PResult Unit) :
    (∀ r, p.sized_read f = (Except.ok (), r) →
      ∃ L p1, p.readI32 = (Except.ok L, p1) ∧ 0 ≤ L ∧ r.pos = p.pos + L.toNat) ∧
    (∀ L p1 endI e q, p.readI32 = (Except.ok L, p1) → 0 ≤ L →
      checkedAddI32 (p.pos : Int) L = some endI → endI ≤ (p.data.length : Int) →
      f endI.toNat p1 = (Except.error e, q) →
      p.sized_read f = (Except.error e, q)) := by
  constructor
  · intro r hr
    unfold Parcel.sized_read at hr
    rcases h1 : p.readI32 with ⟨e1, p1⟩
    rw [h1] at hr
    cases e1 with
    | error e =>
      dsimp only at hr
      simp at hr
    | ok L =>
      dsimp only at hr
      by_cases hL : L < 0
      · rw [if_pos hL] at hr
        simp at hr
      · rw [if_neg hL] at hr
        rcases h2 : checkedAddI32 (p.pos : Int) L with _ | endI
        · rw [h2] at hr
          simp at hr
        · rw [h2] at hr
          dsimp only at hr
          by_cases hsz : endI > (p.data.length : Int)
          · rw [if_pos hsz] at hr
            simp at hr
          · rw [if_neg hsz] at hr
            rcases h3 : f endI.toNat p1 with ⟨e2, p2⟩
            rw [h3] at hr
            cases e2 with
            | error e =>
              dsimp only at hr
              simp at hr
            | ok u =>
              dsimp only at hr
              have hend := checkedAddI32_some _ _ _ h2
              injection hr with hfst hsnd
              refine ⟨L, p1, rfl, by omega, ?_⟩
              rw [← hsnd]
              show endI.toNat = p.pos + L.toNat
              omega
  · intro L p1 endI e q h1 h2 h3 h4 h5
    unfold Parcel.sized_read
    rw [h1]
    dsimp only
    rw [if_neg (by omega), h3]
    dsimp only
    rw [if_neg (by omega), h5]

/-- Witness for C1: a sized block with header 8 whose callback reads
nothing still leaves the cursor at `start + 8`. -/
theorem sized_read_forced_seek_witness :
    ∃ L p1,
      Parcel.readI32 { data := [8, 0, 0, 0, 7, 0, 0, 0], pos := 0 } = (Except.ok L, p1) ∧
      0 ≤ L ∧
      ({ data := [8, 0, 0, 0, 7, 0, 0, 0], pos := 8 } : Parcel).pos =
        ({ data := [8, 0, 0, 0, 7, 0, 0, 0], pos := 0 } : Parcel).pos + L.toNat :=
  (sized_read_forced_seek { data := [8, 0, 0, 0, 7, 0, 0, 0], pos := 0 }
      (fun _ q => (Except.ok (), q))).1
    { data := [8, 0, 0, 0, 7, 0, 0, 0], pos := 8 } (by rfl)

/-- C3: `sized_read` rejects a negative length header with `BAD_VALUE`,
an overflowing `start + L` with `BAD_VALUE`, and `end > size` with
`NOT_ENOUGH_DATA`; in each case the result does not depend on the
callback — the reader callback is never invoked. -/
theorem sized_read_header_checks (p : Parcel) (f g : Nat → Parcel → PResult Unit) :
    (∀ L p1, p.readI32 = (Except.ok L, p1) → L < 0 →
      p.sized_read f = (Except.error StatusCode.BAD_VALUE, p1) ∧
      p.sized_read f = p.sized_read g) ∧
    (∀ L p1, p.readI32 = (Except.ok L, p1) → 0 ≤ L →
      checkedAddI32 (p.pos : Int) L = none →
      p.sized_read f = (Except.error StatusCode.BAD_VALUE, p1) ∧
      p.sized_read f = p.sized_read g) ∧
    (∀ L p1 endI, p.readI32 = (Except.ok L, p1) → 0 ≤ L →
      checkedAddI32 (p.pos : Int) L = some endI → endI > (p.data.length : Int) →
      p.sized_read f = (Except.error StatusCode.NOT_ENOUGH_DATA, p1) ∧
      p.sized_read f = p.sized_read g) := by
  refine ⟨fun L p1 h1 h2 => ?_, fun L p1 h1 h2 h3 => ?_, fun L p1 endI h1 h2 h3 h4 => ?_⟩
  · rw [sized_read_neg_len p f L p1 h1 h2, sized_read_neg_len p g L p1 h1 h2]
    exact ⟨rfl, rfl⟩
  · rw [sized_read_overflow p f L p1 h1 h2 h3, sized_read_overflow p g L p1 h1 h2 h3]
    exact ⟨rfl, rfl⟩
  · rw [sized_read_too_big p f L p1 endI h1 h2 h3 h4,
      sized_read_too_big p g L p1 endI h1 h2 h3 h4]
    exact ⟨rfl, rfl⟩

/-- Witness for C3: the header -1 gives `BAD_VALUE`; the header
`0x7FFFFFFF` read at position 4 overflows `start + L` and gives
`BAD_VALUE`; the header 100 on an 8-byte parcel exceeds the size and
gives `NOT_ENOUGH_DATA`. -/
theorem sized_read_header_checks_witness :
    Parcel.sized_read { data := [255, 255, 255, 255], pos := 0 }
        (fun _ q => (Except.ok (), q)) =
      (Except.error StatusCode.BAD_VALUE, { data := [255, 255, 255, 255], pos := 4 }) ∧
    Parcel.sized_read { data := [0, 0, 0, 0, 255, 255, 255, 127], pos := 4 }
        (fun _ q => (Except.ok (), q)) =
      (Except.error StatusCode.BAD_VALUE,
        { data := [0, 0, 0, 0, 255, 255, 255, 127], pos := 8 }) ∧
    Parcel.sized_read { data := [100, 0, 0, 0, 7, 0, 0, 0], pos := 0 }
        (fun _ q => (Except.ok (), q)) =
      (Except.error StatusCode.NOT_ENOUGH_DATA,
        { data := [100, 0, 0, 0, 7, 0, 0, 0], pos := 4 }) :=
  ⟨((sized_read_header_checks { data := [255, 255, 255, 255], pos := 0 }
        (fun _ q => (Except.ok (), q)) (fun _ q => (Except.error StatusCode.BAD_TYPE, q))).1
      (-1) { data := [255, 255, 255, 255], pos := 4 } (by rfl) (by norm_num)).1,
    ((sized_read_header_checks { data := [0, 0, 0, 0, 255, 255, 255, 127], pos := 4 }
        (fun _ q => (Except.ok (), q)) (fun _ q => (Except.error StatusCode.BAD_TYPE, q))).2.1
      2147483647 { data := [0, 0, 0, 0, 255, 255, 255, 127], pos := 8 }
      (by rfl) (by norm_num) (by decide)).1,
    ((sized_read_header_checks { data := [100, 0, 0, 0, 7, 0, 0, 0], pos := 0 }
        (fun _ q => (Except.ok (), q)) (fun _ q => (Except.error StatusCode.BAD_TYPE, q))).2.2
      100 { data := [100, 0, 0, 0, 7, 0, 0, 0], pos := 4 } 100
      (by rfl) (by norm_num) (by decide) (by decide)).1⟩

end Binder

namespace Binder

/-- C2: when the writer callback succeeds, `sized_write` overwrites the
4-byte placeholder at the recorded start position with `end - start`
(the block's total size including the length field itself) and leaves
the data position at `end`; when the callback errors, the error is
propagated and no patch-back is performed (the state is exactly the
callback's final state). The hypotheses `start + 4 ≤ end` and
`end ≤ size` express that the callback only appended writes after the
placeholder, which is all the `WritableSubParcel` interface allows. -/
theorem sized_write_patch_back (p : Parcel) (f : Parcel → PResult Unit) :
    (∀ e p2, f (Parcel.writeI32 0 p) = (Except.error e, p2) →
      Parcel.sized_write p f = some (Except.error e, p2)) ∧
    (∀ p2, f (Parcel.writeI32 0 p) = (Except.ok (), p2) →
      p.pos + 4 ≤ p2.pos → p2.pos ≤ p2.data.length →
      Parcel.sized_write p f =
        some (Except.ok (),
          { data := p2.data.take p.pos ++ encodeI32 ((p2.pos : Int) - (p.pos : Int))
              ++ p2.data.drop (p.pos + 4),
            pos := p2.pos }) ∧
      ((p2.data.take p.pos ++ encodeI32 ((p2.pos : Int) - (p.pos : Int))
          ++ p2.data.drop (p.pos + 4)).drop p.pos).take 4
        = encodeI32 ((p2.pos : Int) - (p.pos : Int))) := by
  constructor
  · intro e p2 h
    unfold Parcel.sized_write
    rw [h]
  · intro p2 h hlo hhi
    refine ⟨sized_write_ok p f p2 h (by omega), ?_⟩
    have htk : (p2.data.take p.pos).length = p.pos := by
      rw [List.length_take]
      omega
    rw [List.append_assoc, List.drop_left' htk, List.take_left' (length_encodeI32 _)]

/-- Witness for C2: a block whose body is the single value 5 gets its
placeholder patched to 8 and the cursor left at 8. -/
theorem sized_write_patch_back_witness :
    Parcel.sized_write Parcel.new (fun q => (Except.ok (), Parcel.writeI32 5 q)) =
      some (Except.ok (), { data := [8, 0, 0, 0, 5, 0, 0, 0], pos := 8 }) := by
  have h := (sized_write_patch_back Parcel.new (fun q => (Except.ok (), Parcel.writeI32 5 q))).2
    { data := [0, 0, 0, 0, 5, 0, 0, 0], pos := 8 } (by rfl) (by decide) (by decide)
  rw [h.1]
  rfl

/-- C5: writing a length-prefixed slice of `n` fixed-width 4-byte
elements inside `sized_write` appends exactly `4 + 4 + 4*n` bytes
(length field, count field, elements), advances the data position by
that amount, and re-reading the leading length field from the start
position yields that same byte count. -/
theorem sized_write_slice_framing (vs : List Int) (p : Parcel)
    (hpos : p.pos = p.data.length)
    (hbound : 8 + 4 * (vs.length : Int) < 2147483648) :
    ∃ q : Parcel,
      Parcel.sized_write p (fun s => (Except.ok (), Parcel.writeSlice vs s)) =
        some (Except.ok (), q) ∧
      q.pos = p.pos + (8 + 4 * vs.length) ∧
      q.data.length = p.data.length + (8 + 4 * vs.length) ∧
      Parcel.readI32 { q with pos := p.pos } =
        (Except.ok ((8 : Int) + 4 * (vs.length : Int)), { q with pos := p.pos + 4 }) := by
  have hA : Parcel.writeI32 0 p = { data := p.data ++ encodeI32 0, pos := p.pos + 4 } :=
    writeI32_at_end 0 p hpos
  have hB : Parcel.writeI32 (vs.length : Int) { data := p.data ++ encodeI32 0, pos := p.pos + 4 }
      = { data := (p.data ++ encodeI32 0) ++ encodeI32 (vs.length : Int),
          pos := (p.pos + 4) + 4 } := by
    have h := writeI32_at_end (vs.length : Int)
      { data := p.data ++ encodeI32 0, pos := p.pos + 4 }
      (by simp [length_encodeI32, hpos])
    simpa using h
  obtain ⟨body, hw, hblen⟩ := writeAll_at_end vs
    { data := (p.data ++ encodeI32 0) ++ encodeI32 (vs.length : Int), pos := (p.pos + 4) + 4 }
    (by simp [length_encodeI32, hpos])
  have hp2 : Parcel.writeSlice vs (Parcel.writeI32 0 p) =
      { data := p.data ++ encodeI32 0 ++ encodeI32 (vs.length : Int) ++ body,
        pos := p.pos + 8 + 4 * vs.length } := by
    show Parcel.writeAll vs (Parcel.writeI32 (vs.length : Int) (Parcel.writeI32 0 p)) = _
    rw [hA, hB, hw]
  have hfeq : (fun s => (Except.ok (), Parcel.writeSlice vs s)) (Parcel.writeI32 0 p)
      = ((Except.ok (), Parcel.writeSlice vs (Parcel.writeI32 0 p)) : PResult Unit) := rfl
  have hle : p.pos ≤ (Parcel.writeSlice vs (Parcel.writeI32 0 p)).pos := by
    rw [hp2]
    show p.pos ≤ p.pos + 8 + 4 * vs.length
    omega
  have happ := sized_write_ok p (fun s => (Except.ok (), Parcel.writeSlice vs s))
    (Parcel.writeSlice vs (Parcel.writeI32 0 p)) hfeq hle
  have hdelta : (((Parcel.writeSlice vs (Parcel.writeI32 0 p)).pos : Int) - (p.pos : Int))
      = 8 + 4 * (vs.length : Int) := by
    rw [hp2]
    show ((p.pos + 8 + 4 * vs.length : Nat) : Int) - (p.pos : Int) = _
    push_cast
    ring
  have htake : (p.data ++ encodeI32 0 ++ encodeI32 (vs.length : Int) ++ body).take p.pos
      = p.data := by
    rw [List.append_assoc, List.append_assoc, List.take_left' hpos.symm]
  have hdrop : (p.data ++ encodeI32 0 ++ encodeI32 (vs.length : Int) ++ body).drop (p.pos + 4)
      = encodeI32 (vs.length : Int) ++ body := by
    rw [List.append_assoc (p.data ++ encodeI32 0), List.drop_left'
      (by simp [length_encodeI32, hpos])]
  have hdexp : (Parcel.writeSlice vs (Parcel.writeI32 0 p)).data.take p.pos
        ++ encodeI32 (((Parcel.writeSlice vs (Parcel.writeI32 0 p)).pos : Int) - (p.pos : Int))
        ++ (Parcel.writeSlice vs (Parcel.writeI32 0 p)).data.drop (p.pos + 4)
      = p.data ++ encodeI32 (8 + 4 * (vs.length : Int))
        ++ (encodeI32 (vs.length : Int) ++ body) := by
    rw [hdelta, hp2]
    dsimp only
    rw [htake, hdrop]
  refine ⟨{ data := p.data ++ encodeI32 (8 + 4 * (vs.length : Int))
      ++ (encodeI32 (vs.length : Int) ++ body), pos := p.pos + 8 + 4 * vs.length }, ?_, ?_, ?_, ?_⟩
  · rw [happ, hdexp, hp2]
  · show p.pos + 8 + 4 * vs.length = p.pos + (8 + 4 * vs.length)
    omega
  · show (p.data ++ encodeI32 (8 + 4 * (vs.length : Int))
        ++ (encodeI32 (vs.length : Int) ++ body)).length = p.data.length + (8 + 4 * vs.length)
    simp only [List.length_append, length_encodeI32, hblen]
    omega
  · show Parcel.readI32 { data := p.data ++ encodeI32 (8 + 4 * (vs.length : Int))
        ++ (encodeI32 (vs.length : Int) ++ body), pos := p.pos } =
      (Except.ok ((8 : Int) + 4 * (vs.length : Int)),
        { data := p.data ++ encodeI32 (8 + 4 * (vs.length : Int))
            ++ (encodeI32 (vs.length : Int) ++ body), pos := p.pos + 4 })
    rw [hpos]
    exact readI32_encode p.data (encodeI32 (vs.length : Int) ++ body)
      (8 + 4 * (vs.length : Int)) (by omega) hbound

/-- Witness for C5: three elements produce a 20-byte block and the
leading length field reads back as 20. -/
theorem sized_write_slice_framing_witness :
    ∃ q : Parcel,
      Parcel.sized_write Parcel.new
          (fun s => (Except.ok (), Parcel.writeSlice [1, 2, 3] s)) =
        some (Except.ok (), q) ∧
      q.pos = Parcel.new.pos + (8 + 4 * ([1, 2, 3] : List Int).length) ∧
      q.data.length = Parcel.new.data.length + (8 + 4 * ([1, 2, 3] : List Int).length) ∧
      Parcel.readI32 { q with pos := Parcel.new.pos } =
        (Except.ok ((8 : Int) + 4 * (([1, 2, 3] : List Int).length : Int)),
          { q with pos := Parcel.new.pos + 4 }) :=
  sized_write_slice_framing [1, 2, 3] Parcel.new rfl (by decide)

end Binder
